import Mathlib

/-!
Verification development for the `dirtidy` directory organizer.

The Rust sources are embedded shallowly:

* Filesystem paths used by the organizer/undo engine (`file_organizer.rs`,
  `undo.rs`) are modelled as lists of path components (`PathC`); `Path::join`
  with a single component is list append of a singleton.
* Paths used by the filter engine (`config.rs`) are modelled as the raw
  path strings (mirroring `Path::to_string_lossy` / `Pattern::matches_path`,
  which operate on the textual form).
* The filesystem is a state value (`FS`): a map from paths to file contents,
  a set of directories, and oracles for OS-level failures (permission
  errors and the like) of `fs::rename`, `fs::create_dir`, `fs::remove_file`.
  Every fallible Rust function is translated in state-passing style, so a
  mutation performed before a failure is visible in the returned state.
* The `glob` crate (v0.3, default `MatchOptions`) is embedded concretely:
  its tokenizer (`Pattern::new`) and its backtracking matcher
  (`Pattern::matches_path`), specialised to the default options
  (case_sensitive = true, require_literal_separator = false,
  require_literal_leading_dot = false) used by `matches_path`.
* The `regex` crate is external to the program text; a compiled regex is
  modelled as its `is_match` function `String → Bool`, and `Regex::new` as
  an explicit parameter `rxNew : String → Except String (String → Bool)`.
* `chrono::Local::now` (used for undo backup names) is an environment
  input: the formatted timestamp string is a field of the `FS` state.
-/

/-- A filesystem path, as its list of components (no empty or `.` components;
`..` may appear and, as in Rust, has no file name). -/
abbrev PathC := List String

namespace PathC

/-- Mirrors Rust `Path::file_name`: the last component, unless it is `..`
(or the path has no components). -/
def fileName (p : PathC) : Option String :=
  match p.getLast? with
  | none => none
  | some l => if l = ".." then none else some l

end PathC

/-- ASCII lowercasing on the character list (`Char.toLower` lowers only
`A`-`Z`). Mirrors Rust `to_lowercase` for the ASCII strings the program
compares (MIME types, extensions); Unicode case folding is out of scope. -/
def strToLower (s : String) : String :=
  ⟨s.data.map Char.toLower⟩

/-- Whether `pat` occurs as a contiguous run inside `hay`. -/
def charsContain (hay pat : List Char) : Bool :=
  pat.isPrefixOf hay ||
    match hay with
    | [] => false
    | _ :: t => charsContain t pat

/-- Mirrors Rust `str::contains` for a literal pattern. -/
def strContains (s pat : String) : Bool :=
  charsContain s.data pat.data

/-- Whether the string starts with the given character (mirrors Rust
`str::starts_with(char)`). -/
def strStartsWithChar (s : String) (c : Char) : Bool :=
  match s.data with
  | d :: _ => d = c
  | [] => false

/-- Splits a character list on a separator character; mirrors splitting a
Rust string on a one-character separator (always returns at least one,
possibly empty, piece). -/
def splitOnChar (sep : Char) : List Char → List (List Char)
  | [] => [[]]
  | c :: rest =>
    if c = sep then [] :: splitOnChar sep rest
    else
      match splitOnChar sep rest with
      | h :: t => (c :: h) :: t
      | [] => [[c]]

namespace StrPath

/-- Mirrors Rust `Path::file_name` on the textual path: components are the
slash-separated pieces with empty and `.` pieces dropped; the last
component is the file name unless it is `..`. -/
def fileName (s : String) : Option String :=
  let parts := ((splitOnChar '/' s.data).map (fun l => String.mk l)).filter
    (fun c => c ≠ "" ∧ c ≠ ".")
  match parts.getLast? with
  | none => none
  | some l => if l = ".." then none else some l

/-- Mirrors Rust `Path::extension`: the part of the file name after the
last `.` that is not its first character; `none` when there is no such
dot (including leading-dot names such as `.gitignore`). -/
def extension (s : String) : Option String :=
  match fileName s with
  | none => none
  | some f =>
    let parts := (splitOnChar '.' f.data).map (fun l => String.mk l)
    if 2 ≤ parts.length ∧ ¬(parts.headD "" = "" ∧ parts.length = 2) then
      parts.getLast?
    else
      none

end StrPath

/-! ## file_category.rs -/

/-- The closed category enumeration (file_category.rs, `Category`). -/
inductive Category where
  | Image
  | Audio
  | Video
  | Document
  | Archive
  | Code
  | Spreadsheet
  | Presentation
  | Font
  | Other
deriving DecidableEq, Repr

namespace Category

/-- Mirrors `Category::dir_name`. -/
def dir_name : Category → String
  | .Image => "images"
  | .Audio => "audio"
  | .Video => "videos"
  | .Document => "documents"
  | .Archive => "archives"
  | .Code => "code"
  | .Spreadsheet => "spreadsheets"
  | .Presentation => "presentations"
  | .Font => "fonts"
  | .Other => "other"

end Category

/-- Mirrors `FileMapper`: the two lookup tables. A `HashMap` is modelled as
an association list where insertion conses at the front and lookup takes the
first hit, so the last insertion for a key wins, as with `HashMap::insert`. -/
structure FileMapper where
  mime_map : List (String × Category)
  extension_map : List (String × Category)

namespace FileMapper

/-- Mirrors `FileMapper::add_mime_mapping` (key lowercased on insertion). -/
def add_mime_mapping (m : FileMapper) (mime : String) (category : Category) : FileMapper :=
  { m with mime_map := (strToLower mime, category) :: m.mime_map }

/-- Mirrors `FileMapper::add_extension_mapping` (key lowercased on insertion). -/
def add_extension_mapping (m : FileMapper) (ext : String) (category : Category) : FileMapper :=
  { m with extension_map := (strToLower ext, category) :: m.extension_map }

/-- The standard MIME mappings inserted by `populate_standard_mappings`,
in source order. -/
def standardMimes : List (String × Category) :=
  [("image/png", .Image), ("image/jpeg", .Image), ("image/jpg", .Image),
   ("image/gif", .Image), ("image/webp", .Image), ("image/svg+xml", .Image),
   ("image/bmp", .Image), ("image/tiff", .Image), ("image/heic", .Image),
   ("image/heif", .Image),
   ("audio/mpeg", .Audio), ("audio/wav", .Audio), ("audio/ogg", .Audio),
   ("audio/flac", .Audio), ("audio/aac", .Audio), ("audio/x-m4a", .Audio),
   ("audio/webm", .Audio),
   ("video/mp4", .Video), ("video/mpeg", .Video), ("video/quicktime", .Video),
   ("video/x-msvideo", .Video), ("video/x-matroska", .Video),
   ("video/webm", .Video), ("video/x-flv", .Video), ("video/3gpp", .Video),
   ("application/pdf", .Document), ("text/plain", .Document),
   ("text/html", .Document), ("text/markdown", .Document),
   ("application/msword", .Document),
   ("application/vnd.openxmlformats-officedocument.wordprocessingml.document", .Document),
   ("application/rtf", .Document),
   ("application/vnd.oasis.opendocument.text", .Document),
   ("application/zip", .Archive), ("application/x-rar-compressed", .Archive),
   ("application/x-7z-compressed", .Archive), ("application/x-tar", .Archive),
   ("application/gzip", .Archive), ("application/x-bzip2", .Archive),
   ("text/x-python", .Code), ("text/x-java", .Code), ("text/x-c", .Code),
   ("text/x-c++src", .Code), ("text/x-javascript", .Code),
   ("application/javascript", .Code), ("text/x-shellscript", .Code),
   ("text/x-rust", .Code), ("application/json", .Code),
   ("application/xml", .Code), ("text/xml", .Code), ("text/x-yaml", .Code),
   ("text/x-toml", .Code),
   ("text/csv", .Spreadsheet), ("application/vnd.ms-excel", .Spreadsheet),
   ("application/vnd.openxmlformats-officedocument.spreadsheetml.sheet", .Spreadsheet),
   ("application/vnd.oasis.opendocument.spreadsheet", .Spreadsheet),
   ("application/vnd.ms-powerpoint", .Presentation),
   ("application/vnd.openxmlformats-officedocument.presentationml.presentation", .Presentation),
   ("application/vnd.oasis.opendocument.presentation", .Presentation),
   ("font/ttf", .Font), ("font/otf", .Font), ("font/woff", .Font),
   ("font/woff2", .Font), ("application/x-font-ttf", .Font),
   ("application/x-font-otf", .Font)]

/-- The standard extension mappings inserted by `populate_standard_mappings`,
in source order. -/
def standardExtensions : List (String × Category) :=
  [("png", .Image), ("jpg", .Image), ("jpeg", .Image), ("gif", .Image),
   ("webp", .Image), ("svg", .Image), ("bmp", .Image), ("tiff", .Image),
   ("ico", .Image), ("heic", .Image),
   ("mp3", .Audio), ("wav", .Audio), ("ogg", .Audio), ("flac", .Audio),
   ("aac", .Audio), ("m4a", .Audio), ("wma", .Audio),
   ("mp4", .Video), ("mkv", .Video), ("avi", .Video), ("mov", .Video),
   ("flv", .Video), ("wmv", .Video), ("webm", .Video), ("3gp", .Video),
   ("pdf", .Document), ("txt", .Document), ("doc", .Document),
   ("docx", .Document), ("html", .Document), ("htm", .Document),
   ("md", .Document), ("rtf", .Document), ("odt", .Document),
   ("zip", .Archive), ("rar", .Archive), ("7z", .Archive), ("tar", .Archive),
   ("gz", .Archive), ("bz2", .Archive), ("xz", .Archive),
   ("py", .Code), ("java", .Code), ("c", .Code), ("cpp", .Code),
   ("h", .Code), ("hpp", .Code), ("js", .Code), ("ts", .Code),
   ("rs", .Code), ("go", .Code), ("sh", .Code), ("bash", .Code),
   ("json", .Code), ("xml", .Code), ("yaml", .Code), ("yml", .Code),
   ("toml", .Code),
   ("csv", .Spreadsheet), ("xls", .Spreadsheet), ("xlsx", .Spreadsheet),
   ("ods", .Spreadsheet),
   ("ppt", .Presentation), ("pptx", .Presentation), ("odp", .Presentation),
   ("ttf", .Font), ("otf", .Font), ("woff", .Font), ("woff2", .Font)]

/-- Mirrors `FileMapper::new` / `populate_standard_mappings`: insert all
standard mappings into an empty mapper, in source order. -/
def new : FileMapper :=
  let m0 : FileMapper := { mime_map := [], extension_map := [] }
  let m1 := standardMimes.foldl (fun m kv => m.add_mime_mapping kv.1 kv.2) m0
  standardExtensions.foldl (fun m kv => m.add_extension_mapping kv.1 kv.2) m1

/-- Mirrors `FileMapper::mime_to_category`: case-insensitive exact lookup. -/
def mime_to_category (m : FileMapper) (mime_type : String) : Option Category :=
  m.mime_map.lookup (strToLower mime_type)

/-- Mirrors `FileMapper::extension_to_category`: case-insensitive exact lookup. -/
def extension_to_category (m : FileMapper) (ext : String) : Option Category :=
  m.extension_map.lookup (strToLower ext)

/-- Mirrors `FileMapper::categorize`: MIME lookup first (the first
`if let` chain), then extension lookup (the second), then `Other`. -/
def categorize (m : FileMapper) (mime_type : Option String) (ext : Option String) : Category :=
  match mime_type.bind (fun mime => m.mime_to_category mime) with
  | some category => category
  | none =>
    match ext.bind (fun extension => m.extension_to_category extension) with
    | some category => category
    | none => .Other

end FileMapper

/-! ## The glob crate (v0.3), as used by config.rs

`CompiledFilters` matches via `glob::Pattern::matches_path`, which uses the
default `MatchOptions` (case_sensitive = true, require_literal_separator =
false, require_literal_leading_dot = false). The tokenizer (`Pattern::new`)
and the backtracking matcher are embedded below, specialised to those
options. `PatternError` carries a position and message that the caller
(config.rs) discards, so pattern compilation is modelled as `Option`. -/

/-- A character specifier of a glob bracket class (`CharSpecifier`). -/
inductive CharSpec where
  | single (c : Char)
  | range (lo hi : Char)
deriving DecidableEq, Repr

/-- A token of a compiled glob pattern (`PatternToken`). -/
inductive GTok where
  | char (c : Char)
  | anyChar
  | anySeq
  | anyRecSeq
  | anyWithin (specs : List CharSpec)
  | anyExcept (specs : List CharSpec)
deriving DecidableEq, Repr

/-- Mirrors glob `parse_char_specifiers`: `a-b` triples become ranges,
everything else single characters. -/
def parseCharSpecifiers : List Char → List CharSpec
  | a :: '-' :: b :: rest => .range a b :: parseCharSpecifiers rest
  | a :: rest => .single a :: parseCharSpecifiers rest
  | [] => []

/-- Mirrors the `AnyRecursiveSequence` push in glob `Pattern::new`:
consecutive recursive wildcards are collapsed (the length guard is the
crate's; it only matters for consecutive `**` components, where either
behaviour matches the same strings). -/
def pushRecSeq (tokens : List GTok) : List GTok :=
  if 1 < tokens.length ∧ tokens.getLast? = some .anyRecSeq then tokens
  else tokens ++ [.anyRecSeq]

/-- Mirrors glob `Pattern::new`'s tokenizer loop. The `atComponentStart`
flag tracks whether we are at the pattern start or right after a `/`
(the crate checks `i == 2 || chars[i - count - 1] == '/'`). `none` stands
for the crate's `PatternError` (more than two consecutive `*`, a `**`
that is not a whole path component, or an invalid bracket class). -/
def tokenizeGlob : List Char → Bool → List GTok → Option (List GTok)
  | [], _, tokens => some tokens
  | '?' :: rest, _, tokens => tokenizeGlob rest false (tokens ++ [.anyChar])
  | '*' :: '*' :: '*' :: _, _, _ => none
  | '*' :: '*' :: rest, atComponentStart, tokens =>
    if atComponentStart then
      match rest with
      | [] => some (pushRecSeq tokens)
      | '/' :: rest' => tokenizeGlob rest' true (pushRecSeq tokens)
      | _ => none
    else none
  | '*' :: rest, _, tokens => tokenizeGlob rest false (tokens ++ [.anySeq])
  | '[' :: '!' :: d :: rest, _, tokens =>
    match rest.findIdx? (· = ']') with
    | some j =>
      tokenizeGlob (rest.drop (j + 1)) false
        (tokens ++ [.anyExcept (parseCharSpecifiers (d :: rest.take j))])
    | none => none
  | '[' :: d :: rest, _, tokens =>
    if d = '!' then none
    else
      match rest.findIdx? (· = ']') with
      | some j =>
        tokenizeGlob (rest.drop (j + 1)) false
          (tokens ++ [.anyWithin (parseCharSpecifiers (d :: rest.take j))])
      | none => none
  | '[' :: [], _, _ => none
  | c :: rest, _, tokens => tokenizeGlob rest (c = '/') (tokens ++ [.char c])
termination_by cs _ _ => cs.length
decreasing_by
  all_goals simp_all [List.length_drop]
  all_goals omega

/-- Mirrors glob `Pattern::new` on the pattern string. -/
def globNew (pattern : String) : Option (List GTok) :=
  tokenizeGlob pattern.data true []

/-- Mirrors glob `in_char_specifiers` with case_sensitive = true. -/
def inCharSpecifiers (specs : List CharSpec) (c : Char) : Bool :=
  specs.any fun s =>
    match s with
    | .single c2 => c = c2
    | .range lo hi => decide (lo ≤ c) && decide (c ≤ hi)

/-- Whether a single-character glob token matches a character (the
non-sequence arm of glob `matches_from`, case_sensitive = true,
require_literal_separator = false). -/
def tokMatches : GTok → Char → Bool
  | .anyChar, _ => true
  | .anyWithin specs, c => inCharSpecifiers specs c
  | .anyExcept specs, c => !(inCharSpecifiers specs c)
  | .char c2, c => c = c2
  | .anySeq, _ => false
  | .anyRecSeq, _ => false

mutual

/-- Mirrors glob `matches_from` under the default `MatchOptions`, as the
boolean " some backtracking branch matches" (the crate's three-valued
`MatchResult` only short-circuits exhausted-input branches, which cannot
change the final answer). `*` tries the remaining pattern at every suffix;
`**` (whose trailing `/` was consumed by the tokenizer) tries it at the
start and after every `/`. -/
def matchFrom : List GTok → List Char → Bool
  | [], file => file.isEmpty
  | .anySeq :: rest, file => matchFrom rest file || consumeSeq rest file
  | .anyRecSeq :: rest, file => matchFrom rest file || consumeRec rest file
  | tok :: rest, file =>
    match file with
    | [] => false
    | c :: cs => tokMatches tok c && matchFrom rest cs
termination_by toks file => (toks.length, file.length, 1)

/-- The consuming loop of the `AnySequence` arm of `matches_from`. When
the loop exhausts the input, control falls through to the remaining
tokens with the input exhausted, i.e. to `matchFrom rest []`. -/
def consumeSeq (rest : List GTok) : List Char → Bool
  | [] => matchFrom rest []
  | _ :: cs => matchFrom rest cs || consumeSeq rest cs
termination_by file => (rest.length + 1, file.length, 0)

/-- The consuming loop of the `AnyRecursiveSequence` arm of
`matches_from`: the remaining pattern is retried only after a `/`, and,
as with `consumeSeq`, once the loop exhausts the input control falls
through to the remaining tokens (`matchFrom rest []`), which is how a
trailing `**` matches a final slash-free component. -/
def consumeRec (rest : List GTok) : List Char → Bool
  | [] => matchFrom rest []
  | c :: cs =>
    if c = '/' then matchFrom rest cs || consumeRec rest cs
    else consumeRec rest cs
termination_by file => (rest.length + 1, file.length, 0)

end

/-- Mirrors glob `Pattern::matches_path` (via `Path::to_str` and
`Pattern::matches`) on the textual path. -/
def globMatches (tokens : List GTok) (s : String) : Bool :=
  matchFrom tokens s.data

/-! ## config.rs -/

/-- Mirrors `ConfigError` (paths and io errors carried as strings). -/
inductive ConfigError where
  | ConfigNotFound (path : String)
  | ConfigInvalid (msg : String)
  | InvalidGlobPattern (pattern : String)
  | InvalidRegexPattern (pattern : String) (reason : String)
  | IoError (msg : String)
deriving DecidableEq, Repr

/-- Mirrors `ExcludeRules`. -/
structure ExcludeRules where
  filenames : List String
  patterns : List String
  extensions : List String
  regex : List String

/-- Mirrors `IncludeRules`. -/
structure IncludeRules where
  patterns : List String

/-- Mirrors `FilterRules` (the Rust field `include` is spelt `include_`
here because `include` is a Lean keyword). -/
structure FilterRules where
  enable_hidden_files : Bool
  exclude : ExcludeRules
  include_ : IncludeRules

/-- Mirrors `Iterator::collect::<Result<Vec<_>, _>>` over a mapped list:
the first failure aborts with that error. -/
def collectExcept (f : α → Except ε β) : List α → Except ε (List β)
  | [] => .ok []
  | a :: as =>
    match f a with
    | .error e => .error e
    | .ok b =>
      match collectExcept f as with
      | .error e => .error e
      | .ok bs => .ok (b :: bs)

/-- Mirrors `CompiledFilters`: globs compiled to token lists, regexes to
their `is_match` functions, extensions lowercased. A `HashSet` is a list
queried by membership. -/
structure CompiledFilters where
  enable_hidden_files : Bool
  exclude_filenames : List String
  exclude_extensions : List String
  exclude_patterns : List (List GTok)
  exclude_regexes : List (String → Bool)
  include_patterns : List (List GTok)

namespace CompiledFilters

/-- Mirrors `CompiledFilters::new`. `rxNew` stands for `Regex::new` of the
external regex crate (returning the compiled matcher or the error text
used as the `reason`); glob errors discard the `PatternError`, keeping
only the offending pattern. -/
def new (rxNew : String → Except String (String → Bool)) (rules : FilterRules) :
    Except ConfigError CompiledFilters :=
  match collectExcept
      (fun pattern =>
        match globNew pattern with
        | some t => .ok t
        | none => .error (ConfigError.InvalidGlobPattern pattern))
      rules.exclude.patterns with
  | .error e => .error e
  | .ok exclude_patterns =>
    match collectExcept
        (fun pattern =>
          match globNew pattern with
          | some t => .ok t
          | none => .error (ConfigError.InvalidGlobPattern pattern))
        rules.include_.patterns with
    | .error e => .error e
    | .ok include_patterns =>
      match collectExcept
          (fun pattern =>
            match rxNew pattern with
            | .ok r => .ok r
            | .error reason => .error (ConfigError.InvalidRegexPattern pattern reason))
          rules.exclude.regex with
      | .error e => .error e
      | .ok exclude_regexes =>
        .ok { enable_hidden_files := rules.enable_hidden_files
              exclude_filenames := rules.exclude.filenames
              exclude_extensions := rules.exclude.extensions.map strToLower
              exclude_patterns := exclude_patterns
              exclude_regexes := exclude_regexes
              include_patterns := include_patterns }

/-- Mirrors `CompiledFilters::matches_include_patterns`. -/
def matches_include_patterns (cf : CompiledFilters) (file_path : String) : Bool :=
  cf.include_patterns.any (fun pattern => globMatches pattern file_path)

/-- Mirrors `CompiledFilters::matches_exclude_patterns`. -/
def matches_exclude_patterns (cf : CompiledFilters) (file_path : String) : Bool :=
  cf.exclude_patterns.any (fun pattern => globMatches pattern file_path)

/-- Mirrors `CompiledFilters::matches_exclude_regex` (matches the file
name, not the full path). -/
def matches_exclude_regex (cf : CompiledFilters) (file_name : String) : Bool :=
  cf.exclude_regexes.any (fun regex => regex file_name)

/-- The inline step 4 of `should_include` (the `if let Some(ext)` block):
the path has an extension whose lowercasing is in `exclude_extensions`. -/
def excludedByExtension (cf : CompiledFilters) (file_path : String) : Bool :=
  match StrPath.extension file_path with
  | some ext => cf.exclude_extensions.contains (strToLower ext)
  | none => false

/-- Mirrors `CompiledFilters::should_include`: the ordered, short-circuit
decision cascade. -/
def should_include (cf : CompiledFilters) (file_path : String) : Bool :=
  let file_name := (StrPath.fileName file_path).getD ""
  if cf.matches_include_patterns file_path then true
  else if !cf.enable_hidden_files && strStartsWithChar file_name '.' then false
  else if cf.exclude_filenames.contains file_name then false
  else if cf.excludedByExtension file_path then false
  else if cf.matches_exclude_patterns file_path then false
  else if cf.matches_exclude_regex file_name then false
  else true

end CompiledFilters

/-! ## The filesystem model -/

/-- Mirrors `Operation` (file_organizer.rs). -/
structure Operation where
  original_path : PathC
  new_path : PathC
  category : String
deriving DecidableEq, Repr

/-- Mirrors `OperationLog` (file_organizer.rs). -/
structure OperationLog where
  timestamp : String
  base_path : PathC
  operations : List Operation
deriving DecidableEq, Repr

/-- The content of a regular file: raw bytes, or a well-formed serialized
operation log (serde round-tripping of the history JSON is modelled as the
identity on the structured value; any other content is a parse error). -/
inductive Content where
  | data (bytes : String)
  | log (l : OperationLog)
deriving DecidableEq, Repr

/-- The filesystem state: which paths hold files and which are
directories, plus oracles giving the OS-level outcome (an `io::Error`
display string, or success) of `fs::rename`, `fs::create_dir` and
`fs::remove_file` for failure modes beyond a missing source file
(permissions, missing parents, crossing devices, and so on), and the
formatted `chrono::Local::now()` timestamp used for undo backup names. -/
structure FS where
  files : PathC → Option Content
  dirs : PathC → Bool
  renameErr : PathC → PathC → Option String
  createDirErr : PathC → Option String
  removeErr : PathC → Option String
  nowStamp : String

namespace FS

/-- Mirrors Rust `Path::exists`: something (file or directory) is at the
path. -/
def pathExists (fs : FS) (p : PathC) : Bool :=
  (fs.files p).isSome || fs.dirs p

/-- Mirrors `fs::rename` for regular files: fails when the oracle reports
an OS error or no file is at the source; otherwise moves the content
(silently replacing any file at the destination, as on Unix). -/
def rename (fs : FS) (src dst : PathC) : Except String FS :=
  match fs.renameErr src dst with
  | some e => .error e
  | none =>
    match fs.files src with
    | some content =>
      .ok { fs with files := fun q => if q = dst then some content
                                      else if q = src then none
                                      else fs.files q }
    | none => .error "No such file or directory (os error 2)"

/-- Mirrors `fs::create_dir`: fails when the oracle reports an OS error;
otherwise records the directory. -/
def create_dir (fs : FS) (p : PathC) : Except String FS :=
  match fs.createDirErr p with
  | some e => .error e
  | none => .ok { fs with dirs := fun q => if q = p then true else fs.dirs q }

/-- Mirrors `fs::remove_file`: fails when the oracle reports an OS error
or no file is at the path; otherwise removes it. -/
def remove_file (fs : FS) (p : PathC) : Except String FS :=
  match fs.removeErr p with
  | some e => .error e
  | none =>
    match fs.files p with
    | some _ => .ok { fs with files := fun q => if q = p then none else fs.files q }
    | none => .error "No such file or directory (os error 2)"

end FS

/-! ## file_organizer.rs -/

/-- Mirrors `OrganizeError` (io error sources carried as their display
strings). -/
inductive OrganizeError where
  | DirectoryCreationFailed (path : PathC) (source : String)
  | FileMoveFailure (source : PathC) (destination : PathC) (source_error : String)
  | InvalidBasePath (path : PathC) (source : String)
  | HistoryWriteFailed (source : String)
  | HistoryReadFailed (source : String)
  | InvalidHistoryFormat (reason : String)
deriving DecidableEq, Repr

/-- The reserved history file name (`OperationLog::history_file_path`). -/
def historyFileName : String := ".dirtidy_history.json"

namespace OperationLog

/-- Mirrors `OperationLog::history_file_path`. -/
def history_file_path (base_path : PathC) : PathC :=
  base_path ++ [historyFileName]

/-- Mirrors `OperationLog::load`: absent file is `ok none`; unreadable
file is `HistoryReadFailed`; content that does not parse as a history
log is `InvalidHistoryFormat`. -/
def load (fs : FS) (base_path : PathC) : Except OrganizeError (Option OperationLog) :=
  let history_path := history_file_path base_path
  if fs.pathExists history_path = false then .ok none
  else
    match fs.files history_path with
    | some (.log l) => .ok (some l)
    | some (.data _) => .error (.InvalidHistoryFormat "JSON parse error")
    | none => .error (.HistoryReadFailed "Is a directory (os error 21)")

/-- Mirrors `OperationLog::delete`: removing a missing file is a success;
a failed removal is `HistoryWriteFailed` and leaves the state unchanged. -/
def delete (fs : FS) (base_path : PathC) : (Except OrganizeError Unit) × FS :=
  let history_path := history_file_path base_path
  if fs.pathExists history_path then
    match fs.remove_file history_path with
    | .ok fs' => (.ok (), fs')
    | .error e => (.error (.HistoryWriteFailed e), fs)
  else (.ok (), fs)

end OperationLog

namespace FileOrganizer

/-- Mirrors `FileOrganizer::move_to_category_with_record`, in
state-passing style so mutations made before a failure remain visible:
base-path existence check, category directory creation (if absent), file
name extraction, then the rename, recording the operation on success. -/
def move_to_category_with_record (fs : FS) (base_path file_path : PathC)
    (category_dir_name : String) : (Except OrganizeError Operation) × FS :=
  if fs.pathExists base_path = false then
    (.error (.InvalidBasePath base_path "base path does not exist"), fs)
  else
    let category_path := base_path ++ [category_dir_name]
    match (if fs.pathExists category_path = false then fs.create_dir category_path
           else .ok fs) with
    | .error e => (.error (.DirectoryCreationFailed category_path e), fs)
    | .ok fs1 =>
      match PathC.fileName file_path with
      | none =>
        (.error (.FileMoveFailure file_path category_path "file has no name component"), fs1)
      | some file_name =>
        let destination_path := category_path ++ [file_name]
        match fs1.rename file_path destination_path with
        | .error e => (.error (.FileMoveFailure file_path destination_path e), fs1)
        | .ok fs2 =>
          (.ok { original_path := file_path
                 new_path := destination_path
                 category := category_dir_name }, fs2)

end FileOrganizer

/-! ## undo.rs -/

/-- Mirrors `UndoReport`. -/
structure UndoReport where
  restored_files : Nat
  failed_restores : List (PathC × String)
  skipped_files : List (PathC × String)
deriving DecidableEq, Repr

namespace UndoReport

/-- Mirrors `UndoReport::new`. -/
def new : UndoReport :=
  { restored_files := 0, failed_restores := [], skipped_files := [] }

/-- Mirrors `UndoReport::total_processed`. -/
def total_processed (r : UndoReport) : Nat :=
  r.restored_files + r.failed_restores.length + r.skipped_files.length

/-- Mirrors `UndoReport::is_complete_success`. -/
def is_complete_success (r : UndoReport) : Bool :=
  r.failed_restores.isEmpty && r.skipped_files.isEmpty

end UndoReport

namespace UndoManager

/-- Mirrors `UndoManager::generate_backup_path`: `<name>.bak.<timestamp>`
in the same parent directory (`nowStamp` is the formatted
`chrono::Local::now()` value). -/
def generate_backup_path (nowStamp : String) (original_path : PathC) : PathC :=
  let filename := (PathC.fileName original_path).getD "file"
  original_path.dropLast ++ [filename ++ ".bak." ++ nowStamp]

/-- Mirrors `UndoManager::restore_file`, in state-passing style: skip
(with a "not found" reason) when nothing is at the recorded new path;
back up any occupant of the original path to a timestamped name (a failed
backup aborts with its cause, before the restore move); then move the
file back (a failed move aborts with its cause). -/
def restore_file (fs : FS) (operation : Operation) :
    (Except (PathC × String) Unit) × FS :=
  if fs.pathExists operation.new_path = false then
    (.error (operation.new_path, "File not found at expected location"), fs)
  else
    match (if fs.pathExists operation.original_path then
             match fs.rename operation.original_path
                 (generate_backup_path fs.nowStamp operation.original_path) with
             | .ok fs' => .ok fs'
             | .error e =>
               .error (operation.original_path, "Could not backup conflicting file: " ++ e)
           else .ok fs : Except (PathC × String) FS) with
    | .error pe => (.error pe, fs)
    | .ok fs1 =>
      match fs1.rename operation.new_path operation.original_path with
      | .ok fs2 => (.ok (), fs2)
      | .error e => (.error (operation.new_path, "Failed to restore file: " ++ e), fs1)

/-- The body of the `for operation in log.operations.iter().rev()` loop of
`UndoManager::undo`: a successful restore increments the restored count; a
failed one is bucketed by whether its reason contains "not found"
(skipped) or not (failed). -/
def undoStep (report : UndoReport) (fs : FS) (operation : Operation) : UndoReport × FS :=
  match restore_file fs operation with
  | (.ok (), fs') => ({ report with restored_files := report.restored_files + 1 }, fs')
  | (.error (path, reason), fs') =>
    if strContains reason "not found" then
      ({ report with skipped_files := report.skipped_files ++ [(path, reason)] }, fs')
    else
      ({ report with failed_restores := report.failed_restores ++ [(path, reason)] }, fs')

/-- The loop of `UndoManager::undo` over the operations it is given (undo
passes the recorded operations reversed). The third component records the
operations in the order they were attempted. -/
def processOps (report : UndoReport) (fs : FS) (attempted : List Operation) :
    List Operation → UndoReport × FS × List Operation
  | [] => (report, fs, attempted)
  | operation :: rest =>
    let (report', fs') := undoStep report fs operation
    processOps report' fs' (attempted ++ [operation]) rest

/-- Mirrors `UndoManager::undo`, in state-passing style: validate the base
path, load the log (absent log is an `InvalidHistoryFormat` error),
process the operations in reverse recorded order, and delete the history
file only on complete success (a failed deletion is merely logged and the
report is returned unchanged). -/
def undo (fs : FS) (base_path : PathC) : (Except OrganizeError UndoReport) × FS :=
  if fs.pathExists base_path = false then
    (.error (.InvalidBasePath base_path "base path does not exist"), fs)
  else
    match OperationLog.load fs base_path with
    | .error e => (.error e, fs)
    | .ok none => (.error (.InvalidHistoryFormat "No previous organization found to undo"), fs)
    | .ok (some log) =>
      let (report, fs1, _) := processOps UndoReport.new fs [] log.operations.reverse
      if report.is_complete_success then
        let (_, fs2) := OperationLog.delete fs1 base_path
        (.ok report, fs2)
      else
        (.ok report, fs1)

end UndoManager

/-! ## Theorems -/

/-- C7: `categorize` is total (it is a Lean function into `Category`) and
follows this exact precedence: a MIME string that matches the MIME table
(case-insensitively, via `mime_to_category`) decides the category,
regardless of the extension; otherwise a matching extension decides;
otherwise the result is `Other`. -/
theorem categorize_precedence (m : FileMapper) (mime_type ext : Option String) :
    (∀ mime category, mime_type = some mime → m.mime_to_category mime = some category →
      m.categorize mime_type ext = category) ∧
    (mime_type.bind m.mime_to_category = none →
      ∀ e category, ext = some e → m.extension_to_category e = some category →
        m.categorize mime_type ext = category) ∧
    (mime_type.bind m.mime_to_category = none → ext.bind m.extension_to_category = none →
      m.categorize mime_type ext = .Other) := by
  refine ⟨?_, ?_, ?_⟩
  · intro mime category hm hc
    subst hm
    simp [FileMapper.categorize, hc]
  · intro hmiss e category he hc
    subst he
    simp [FileMapper.categorize, hmiss, hc]
  · intro hmiss hemiss
    simp [FileMapper.categorize, hmiss, hemiss]

/-- Witness for `categorize_precedence` at the standard mapper: an
uppercase MIME wins over a conflicting extension, the extension is the
fallback (case-insensitively), and two misses give `Other`. -/
theorem categorize_precedence_witness :
    FileMapper.new.categorize (some "IMAGE/PNG") (some "txt") = .Image ∧
    FileMapper.new.categorize none (some "PDF") = .Document ∧
    FileMapper.new.categorize (some "unknown/type") (some "xyz") = .Other :=
  ⟨(categorize_precedence FileMapper.new (some "IMAGE/PNG") (some "txt")).1
      "IMAGE/PNG" .Image rfl (by decide),
   (categorize_precedence FileMapper.new none (some "PDF")).2.1
      (by decide) "PDF" .Document rfl (by decide),
   (categorize_precedence FileMapper.new (some "unknown/type") (some "xyz")).2.2
      (by decide) (by decide)⟩

/-- Auxiliary: collecting mapped results succeeds iff every element maps
to a success. -/
theorem collectExcept_ok_iff (f : α → Except ε β) (l : List α) :
    (∃ bs, collectExcept f l = .ok bs) ↔ ∀ a ∈ l, ∃ b, f a = .ok b := by
  induction l with
  | nil => simp [collectExcept]
  | cons a as ih =>
    constructor
    · rintro ⟨bs, h⟩ x hx
      cases hfa : f a with
      | error e => simp [collectExcept, hfa] at h
      | ok b =>
        cases hrec : collectExcept f as with
        | error e => simp [collectExcept, hfa, hrec] at h
        | ok bs' =>
          rcases List.mem_cons.mp hx with hx | hx
          · exact hx ▸ ⟨b, hfa⟩
          · exact (ih.mp ⟨bs', hrec⟩) x hx
    · intro hall
      obtain ⟨b, hb⟩ := hall a (List.mem_cons_self a as)
      obtain ⟨bs, hbs⟩ := ih.mpr (fun x hx => hall x (List.mem_cons_of_mem a hx))
      exact ⟨b :: bs, by simp [collectExcept, hb, hbs]⟩

/-- Auxiliary: a collection error is the error of some element. -/
theorem collectExcept_error_mem (f : α → Except ε β) (l : List α) (e : ε)
    (h : collectExcept f l = .error e) : ∃ a ∈ l, f a = .error e := by
  induction l with
  | nil => simp [collectExcept] at h
  | cons a as ih =>
    cases hfa : f a with
    | error e' =>
      simp only [collectExcept, hfa] at h
      cases h
      exact ⟨a, List.mem_cons_self a as, hfa⟩
    | ok b =>
      cases hrec : collectExcept f as with
      | error e' =>
        simp only [collectExcept, hfa, hrec] at h
        cases h
        obtain ⟨x, hx, hfx⟩ := ih hrec
        exact ⟨x, List.mem_cons_of_mem a hx, hfx⟩
      | ok bs => simp [collectExcept, hfa, hrec] at h

/-- C8: filter compilation is atomic. A `CompiledFilters` value is
produced exactly when every exclude glob, include glob and exclude regex
pattern compiles; otherwise the result is an error naming an offending
pattern that really fails to compile (and, for a regex, the underlying
reason reported by the regex engine). -/
theorem compiled_filters_new_atomic (rxNew : String → Except String (String → Bool))
    (rules : FilterRules) :
    ((∃ cf, CompiledFilters.new rxNew rules = .ok cf) ↔
      ((∀ p ∈ rules.exclude.patterns, ∃ t, globNew p = some t) ∧
       (∀ p ∈ rules.include_.patterns, ∃ t, globNew p = some t) ∧
       (∀ p ∈ rules.exclude.regex, ∃ r, rxNew p = .ok r))) ∧
    (∀ err, CompiledFilters.new rxNew rules = .error err →
      ((∃ p, err = .InvalidGlobPattern p ∧ globNew p = none ∧
          (p ∈ rules.exclude.patterns ∨ p ∈ rules.include_.patterns)) ∨
       (∃ p reason, err = .InvalidRegexPattern p reason ∧ rxNew p = .error reason ∧
          p ∈ rules.exclude.regex))) := by
  have globOne : ∀ p : String,
      (∃ t, (match globNew p with
              | some t => Except.ok t
              | none => Except.error (ConfigError.InvalidGlobPattern p)) = .ok t) ↔
      ∃ t, globNew p = some t := by
    intro p
    cases h : globNew p <;> simp [h]
  have rxOne : ∀ p : String,
      (∃ r, (match rxNew p with
              | .ok r => Except.ok r
              | .error reason =>
                Except.error (ConfigError.InvalidRegexPattern p reason)) = .ok r) ↔
      ∃ r, rxNew p = .ok r := by
    intro p
    cases h : rxNew p <;> simp [h]
  constructor
  · constructor
    · rintro ⟨cf, hcf⟩
      unfold CompiledFilters.new at hcf
      cases hex : collectExcept (fun pattern =>
          match globNew pattern with
          | some t => Except.ok t
          | none => Except.error (ConfigError.InvalidGlobPattern pattern))
          rules.exclude.patterns with
      | error e => rw [hex] at hcf; cases hcf
      | ok eps =>
        rw [hex] at hcf
        cases hinc : collectExcept (fun pattern =>
            match globNew pattern with
            | some t => Except.ok t
            | none => Except.error (ConfigError.InvalidGlobPattern pattern))
            rules.include_.patterns with
        | error e => rw [hinc] at hcf; cases hcf
        | ok ips =>
          rw [hinc] at hcf
          cases hrx : collectExcept (fun pattern =>
              match rxNew pattern with
              | .ok r => Except.ok r
              | .error reason => Except.error (ConfigError.InvalidRegexPattern pattern reason))
              rules.exclude.regex with
          | error e => rw [hrx] at hcf; cases hcf
          | ok rxs =>
            refine ⟨fun p hp => (globOne p).mp ?_, fun p hp => (globOne p).mp ?_,
                    fun p hp => (rxOne p).mp ?_⟩
            · exact (collectExcept_ok_iff _ _).mp ⟨eps, hex⟩ p hp
            · exact (collectExcept_ok_iff _ _).mp ⟨ips, hinc⟩ p hp
            · exact (collectExcept_ok_iff _ _).mp ⟨rxs, hrx⟩ p hp
    · rintro ⟨hex, hinc, hrx⟩
      obtain ⟨eps, heps⟩ := (collectExcept_ok_iff _ rules.exclude.patterns).mpr
        (fun p hp => (globOne p).mpr (hex p hp))
      obtain ⟨ips, hips⟩ := (collectExcept_ok_iff _ rules.include_.patterns).mpr
        (fun p hp => (globOne p).mpr (hinc p hp))
      obtain ⟨rxs, hrxs⟩ := (collectExcept_ok_iff _ rules.exclude.regex).mpr
        (fun p hp => (rxOne p).mpr (hrx p hp))
      exact ⟨_, by unfold CompiledFilters.new; rw [heps, hips, hrxs]⟩
  · intro err herr
    unfold CompiledFilters.new at herr
    cases hex : collectExcept (fun pattern =>
        match globNew pattern with
        | some t => Except.ok t
        | none => Except.error (ConfigError.InvalidGlobPattern pattern))
        rules.exclude.patterns with
    | error e =>
      rw [hex] at herr
      cases herr
      obtain ⟨p, hp, hfp⟩ := collectExcept_error_mem _ _ _ hex
      cases hg : globNew p with
      | some t => rw [hg] at hfp; cases hfp
      | none =>
        rw [hg] at hfp
        cases hfp
        exact .inl ⟨p, rfl, hg, .inl hp⟩
    | ok eps =>
      rw [hex] at herr
      cases hinc : collectExcept (fun pattern =>
          match globNew pattern with
          | some t => Except.ok t
          | none => Except.error (ConfigError.InvalidGlobPattern pattern))
          rules.include_.patterns with
      | error e =>
        rw [hinc] at herr
        cases herr
        obtain ⟨p, hp, hfp⟩ := collectExcept_error_mem _ _ _ hinc
        cases hg : globNew p with
        | some t => rw [hg] at hfp; cases hfp
        | none =>
          rw [hg] at hfp
          cases hfp
          exact .inl ⟨p, rfl, hg, .inr hp⟩
      | ok ips =>
        rw [hinc] at herr
        cases hrx : collectExcept (fun pattern =>
            match rxNew pattern with
            | .ok r => Except.ok r
            | .error reason => Except.error (ConfigError.InvalidRegexPattern pattern reason))
            rules.exclude.regex with
        | error e =>
          rw [hrx] at herr
          cases herr
          obtain ⟨p, hp, hfp⟩ := collectExcept_error_mem _ _ _ hrx
          cases hg : rxNew p with
          | ok r => rw [hg] at hfp; cases hfp
          | error reason =>
            rw [hg] at hfp
            cases hfp
            exact .inr ⟨p, reason, rfl, hg, hp⟩
        | ok rxs => rw [hrx] at herr; cases herr

/-- A regex engine stub for witnesses: every pattern compiles, to a
matcher that matches nothing. -/
def rxMatchNothing : String → Except String (String → Bool) := fun _ => .ok (fun _ => false)

/-- A regex engine stub for witnesses: every pattern is rejected. -/
def rxRejectAll : String → Except String (String → Bool) := fun _ => .error "regex parse error"

/-- Witness for `compiled_filters_new_atomic`: a rule set whose only
pattern is the valid glob `*.tmp` compiles successfully. -/
theorem compiled_filters_new_atomic_witness :
    ∃ cf, CompiledFilters.new rxMatchNothing
      { enable_hidden_files := true
        exclude := { filenames := [], patterns := ["*.tmp"], extensions := [], regex := [] }
        include_ := { patterns := [] } } = .ok cf :=
  (compiled_filters_new_atomic rxMatchNothing _).1.mpr
    ⟨by
      intro p hp
      simp only [List.mem_singleton] at hp
      subst hp
      exact ⟨[.anySeq, .char '.', .char 't', .char 'm', .char 'p'],
        by simp [globNew, tokenizeGlob]⟩,
     by simp, by simp⟩

/-- C5: `should_include` evaluates its checks in the fixed order, first
decisive check winning: (1) an include-glob match always includes;
(2) otherwise a hidden file (leading `.`) with hidden files disabled is
excluded; (3) otherwise an exact file-name match excludes; (4) otherwise
a lowercased-extension match excludes (the stored set is the rules'
extension list lowercased, making the comparison case-insensitive);
(5) otherwise an exclude-glob match on the path excludes; (6) otherwise
an exclude-regex match on the file name only excludes; (7) otherwise the
file is included. -/
theorem should_include_decision_order (cf : CompiledFilters) (file_path : String) :
    (cf.matches_include_patterns file_path = true →
      cf.should_include file_path = true) ∧
    (cf.matches_include_patterns file_path = false →
      cf.enable_hidden_files = false →
      strStartsWithChar ((StrPath.fileName file_path).getD "") '.' = true →
      cf.should_include file_path = false) ∧
    (cf.matches_include_patterns file_path = false →
      (!cf.enable_hidden_files &&
        strStartsWithChar ((StrPath.fileName file_path).getD "") '.') = false →
      cf.exclude_filenames.contains ((StrPath.fileName file_path).getD "") = true →
      cf.should_include file_path = false) ∧
    (cf.matches_include_patterns file_path = false →
      (!cf.enable_hidden_files &&
        strStartsWithChar ((StrPath.fileName file_path).getD "") '.') = false →
      cf.exclude_filenames.contains ((StrPath.fileName file_path).getD "") = false →
      cf.excludedByExtension file_path = true →
      cf.should_include file_path = false) ∧
    (cf.matches_include_patterns file_path = false →
      (!cf.enable_hidden_files &&
        strStartsWithChar ((StrPath.fileName file_path).getD "") '.') = false →
      cf.exclude_filenames.contains ((StrPath.fileName file_path).getD "") = false →
      cf.excludedByExtension file_path = false →
      cf.matches_exclude_patterns file_path = true →
      cf.should_include file_path = false) ∧
    (cf.matches_include_patterns file_path = false →
      (!cf.enable_hidden_files &&
        strStartsWithChar ((StrPath.fileName file_path).getD "") '.') = false →
      cf.exclude_filenames.contains ((StrPath.fileName file_path).getD "") = false →
      cf.excludedByExtension file_path = false →
      cf.matches_exclude_patterns file_path = false →
      cf.matches_exclude_regex ((StrPath.fileName file_path).getD "") = true →
      cf.should_include file_path = false) ∧
    (cf.matches_include_patterns file_path = false →
      (!cf.enable_hidden_files &&
        strStartsWithChar ((StrPath.fileName file_path).getD "") '.') = false →
      cf.exclude_filenames.contains ((StrPath.fileName file_path).getD "") = false →
      cf.excludedByExtension file_path = false →
      cf.matches_exclude_patterns file_path = false →
      cf.matches_exclude_regex ((StrPath.fileName file_path).getD "") = false →
      cf.should_include file_path = true) ∧
    (∀ rxNew rules, CompiledFilters.new rxNew rules = .ok cf →
      cf.exclude_extensions = rules.exclude.extensions.map strToLower) := by
  refine ⟨?_, ?_, ?_, ?_, ?_, ?_, ?_, ?_⟩
  · intro h1
    simp [CompiledFilters.should_include, h1]
  · intro h1 h2 h3
    simp [CompiledFilters.should_include, h1, h2, h3]
  · intro h1 h2 h3
    simp at h3
    simp [CompiledFilters.should_include, h1, h2, h3]
  · intro h1 h2 h3 h4
    simp at h3
    simp [CompiledFilters.should_include, h1, h2, h3, h4]
  · intro h1 h2 h3 h4 h5
    simp at h3
    simp [CompiledFilters.should_include, h1, h2, h3, h4, h5]
  · intro h1 h2 h3 h4 h5 h6
    simp at h3
    simp [CompiledFilters.should_include, h1, h2, h3, h4, h5, h6]
  · intro h1 h2 h3 h4 h5 h6
    simp at h3
    simp [CompiledFilters.should_include, h1, h2, h3, h4, h5, h6]
  · intro rxNew rules h
    unfold CompiledFilters.new at h
    cases hex : collectExcept (fun pattern =>
        match globNew pattern with
        | some t => Except.ok t
        | none => Except.error (ConfigError.InvalidGlobPattern pattern))
        rules.exclude.patterns with
    | error e => rw [hex] at h; cases h
    | ok eps =>
      rw [hex] at h
      cases hinc : collectExcept (fun pattern =>
          match globNew pattern with
          | some t => Except.ok t
          | none => Except.error (ConfigError.InvalidGlobPattern pattern))
          rules.include_.patterns with
      | error e => rw [hinc] at h; cases h
      | ok ips =>
        rw [hinc] at h
        cases hrx : collectExcept (fun pattern =>
            match rxNew pattern with
            | .ok r => Except.ok r
            | .error reason => Except.error (ConfigError.InvalidRegexPattern pattern reason))
            rules.exclude.regex with
        | error e => rw [hrx] at h; cases h
        | ok rxs =>
          rw [hrx] at h
          cases h
          rfl

/-- Witness for `should_include_decision_order`: with everything else
empty and hidden files disabled, `.secret` is excluded by step (2), and
`notes.txt` falls through to step (7) and is included. -/
theorem should_include_decision_order_witness :
    ({ enable_hidden_files := false, exclude_filenames := [], exclude_extensions := [],
       exclude_patterns := [], exclude_regexes := [],
       include_patterns := [] } : CompiledFilters).should_include ".secret" = false ∧
    ({ enable_hidden_files := false, exclude_filenames := [], exclude_extensions := [],
       exclude_patterns := [], exclude_regexes := [],
       include_patterns := [] } : CompiledFilters).should_include "notes.txt" = true :=
  ⟨(should_include_decision_order _ ".secret").2.1 (by decide) rfl (by decide),
   (should_include_decision_order _ "notes.txt").2.2.2.2.2.2.1
     (by decide) (by decide) (by decide) (by decide) (by decide) (by decide)⟩

/-- Runs the filter pipeline with only the given exclude glob patterns:
compile the rule set (regexes handled by `rxMatchNothing`; there are
none) and evaluate `should_include` on the path; `none` if compilation
fails. -/
def excludeGlobsInclude (patterns : List String) (path : String) : Option Bool :=
  match CompiledFilters.new rxMatchNothing
      { enable_hidden_files := true
        exclude := { filenames := [], patterns := patterns, extensions := [], regex := [] }
        include_ := { patterns := [] } } with
  | .ok cf => some (cf.should_include path)
  | .error _ => none

/-- C6, counterexample: with the exclude pattern `a*b`, the path `a/b`
is excluded — the glob `*` does match across a `/` (`matches_path` uses
the default `MatchOptions`, which do not require literal separators), so
glob matching in the filter engine does not respect path-segment
boundaries as claimed. -/
theorem glob_star_crosses_separator_cex :
    excludeGlobsInclude ["a*b"] "a/b" = some false := by
  simp [excludeGlobsInclude, CompiledFilters.new, collectExcept, globNew, tokenizeGlob,
    CompiledFilters.should_include, CompiledFilters.matches_include_patterns,
    CompiledFilters.matches_exclude_patterns, CompiledFilters.matches_exclude_regex,
    CompiledFilters.excludedByExtension, globMatches, matchFrom, consumeSeq, consumeRec,
    tokMatches, StrPath.fileName, StrPath.extension, splitOnChar, strStartsWithChar,
    strToLower]

/-- C6, amended: `**` does match zero or more whole path segments — the
exclude pattern `**/logs/**` excludes `app/logs/f.txt` and
`logs/file.txt` but not `my_logs/f.txt` — while the single `*` may match
across `/` (default `MatchOptions`), as `a*b` excluding `a/b` shows. -/
theorem glob_boundary_amended :
    excludeGlobsInclude ["**/logs/**"] "app/logs/f.txt" = some false ∧
    excludeGlobsInclude ["**/logs/**"] "logs/file.txt" = some false ∧
    excludeGlobsInclude ["**/logs/**"] "my_logs/f.txt" = some true ∧
    excludeGlobsInclude ["a*b"] "a/b" = some false := by
  refine ⟨?_, ?_, ?_, ?_⟩ <;>
    simp [excludeGlobsInclude, CompiledFilters.new, collectExcept, globNew, tokenizeGlob,
      pushRecSeq, CompiledFilters.should_include, CompiledFilters.matches_include_patterns,
      CompiledFilters.matches_exclude_patterns, CompiledFilters.matches_exclude_regex,
      CompiledFilters.excludedByExtension, globMatches, matchFrom, consumeSeq, consumeRec,
      tokMatches, StrPath.fileName, StrPath.extension, splitOnChar, strStartsWithChar,
      strToLower]

/-- Auxiliary: the undo loop records exactly the operations it is given,
in the order given, appended to the prior trace. -/
theorem processOps_attempted (l : List Operation) :
    ∀ (report : UndoReport) (fs : FS) (attempted : List Operation),
      (UndoManager.processOps report fs attempted l).2.2 = attempted ++ l := by
  induction l with
  | nil =>
    intro r fs a
    simp [UndoManager.processOps]
  | cons op rest ih =>
    intro r fs a
    rcases hu : UndoManager.undoStep r fs op with ⟨r', f'⟩
    simp [UndoManager.processOps, hu, ih]

/-- Auxiliary: one undo step grows exactly one report bucket. -/
theorem undoStep_total (report : UndoReport) (fs : FS) (op : Operation) :
    ((UndoManager.undoStep report fs op).1).total_processed =
      report.total_processed + 1 := by
  unfold UndoManager.undoStep
  rcases h : UndoManager.restore_file fs op with ⟨res, fs'⟩
  cases res with
  | ok u =>
    simp [UndoReport.total_processed]
    omega
  | error pe =>
    rcases pe with ⟨p, reason⟩
    by_cases hc : strContains reason "not found" = true
    · simp [hc, UndoReport.total_processed]
      omega
    · simp [Bool.not_eq_true] at hc
      simp [hc, UndoReport.total_processed]
      omega

/-- Auxiliary: the undo loop grows the report total by the number of
operations processed. -/
theorem processOps_total (l : List Operation) :
    ∀ (report : UndoReport) (fs : FS) (attempted : List Operation),
      ((UndoManager.processOps report fs attempted l).1).total_processed =
        report.total_processed + l.length := by
  induction l with
  | nil =>
    intro r fs a
    simp [UndoManager.processOps]
  | cons op rest ih =>
    intro r fs a
    rcases hu : UndoManager.undoStep r fs op with ⟨r', f'⟩
    have hstep := undoStep_total r fs op
    rw [hu] at hstep
    simp only [UndoManager.processOps, hu, ih, hstep, List.length_cons]
    omega

/-- C3: for a loaded log, undo attempts the recorded operations in
exactly the reverse of their recorded order — the attempt trace is the
reversed list, its first element is the last-recorded operation, it is a
permutation of the log (each operation attempted exactly once) — and the
report `undo` returns is the one produced by that reversed run. -/
theorem undo_reverse_order (fs : FS) (base_path : PathC) (log : OperationLog)
    (hbase : fs.pathExists base_path = true)
    (hload : OperationLog.load fs base_path = .ok (some log)) :
    (UndoManager.processOps UndoReport.new fs [] log.operations.reverse).2.2 =
        log.operations.reverse ∧
    ((UndoManager.processOps UndoReport.new fs [] log.operations.reverse).2.2).head? =
        log.operations.getLast? ∧
    ((UndoManager.processOps UndoReport.new fs [] log.operations.reverse).2.2).Perm
        log.operations ∧
    (UndoManager.undo fs base_path).1 =
      .ok (UndoManager.processOps UndoReport.new fs [] log.operations.reverse).1 := by
  have htr := processOps_attempted log.operations.reverse UndoReport.new fs []
  simp only [List.nil_append] at htr
  refine ⟨htr, ?_, ?_, ?_⟩
  · rw [htr, List.head?_reverse]
  · rw [htr]
    exact List.reverse_perm _
  · unfold UndoManager.undo
    rcases hp : UndoManager.processOps UndoReport.new fs [] log.operations.reverse
      with ⟨r, f, t⟩
    simp only [hbase, Bool.true_eq_false, if_false, hload, hp]
    cases hs : r.is_complete_success <;> simp

/-- C10: every operation of the loaded log is counted in exactly one
bucket of the returned report: restored count plus failed list length
plus skipped list length equals the number of recorded operations. -/
theorem undo_report_accounting (fs : FS) (base_path : PathC) (log : OperationLog)
    (report : UndoReport)
    (hbase : fs.pathExists base_path = true)
    (hload : OperationLog.load fs base_path = .ok (some log))
    (hundo : (UndoManager.undo fs base_path).1 = .ok report) :
    report.restored_files + report.failed_restores.length + report.skipped_files.length =
      log.operations.length := by
  unfold UndoManager.undo at hundo
  rcases hp : UndoManager.processOps UndoReport.new fs [] log.operations.reverse
    with ⟨r, f, t⟩
  simp only [hbase, Bool.true_eq_false, if_false, hload, hp] at hundo
  have htot := processOps_total log.operations.reverse UndoReport.new fs []
  rw [hp] at htot
  have hr : report = r := by
    cases hs : r.is_complete_success <;> simp [hs] at hundo <;> exact hundo.symm
  subst hr
  have : report.total_processed = log.operations.length := by
    simpa [UndoReport.new, UndoReport.total_processed] using htot
  simpa [UndoReport.total_processed] using this

/-- Example log for witnesses: one recorded move of `b/test.txt` to
`b/documents/test.txt`. -/
def exLog : OperationLog :=
  { timestamp := "2025-11-09T14:30:52Z"
    base_path := ["b"]
    operations := [{ original_path := ["b", "test.txt"]
                     new_path := ["b", "documents", "test.txt"]
                     category := "documents" }] }

/-- Example state for witnesses: base directory `b` holding the moved
file and the history file recording `exLog`; no OS failures. -/
def exUndoFS : FS :=
  { files := fun p =>
      if p = ["b", "documents", "test.txt"] then some (.data "test content")
      else if p = ["b", ".dirtidy_history.json"] then some (.log exLog)
      else none
    dirs := fun p => p == ["b"] || p == ["b", "documents"]
    renameErr := fun _ _ => none
    createDirErr := fun _ => none
    removeErr := fun _ => none
    nowStamp := "20251109-143052" }

/-- Witness for `undo_reverse_order` on `exUndoFS`: the attempt trace is
the reversed recorded list and the returned report is the loop's. -/
theorem undo_reverse_order_witness :
    (UndoManager.processOps UndoReport.new exUndoFS [] exLog.operations.reverse).2.2 =
      exLog.operations.reverse ∧
    (UndoManager.undo exUndoFS ["b"]).1 =
      .ok (UndoManager.processOps UndoReport.new exUndoFS [] exLog.operations.reverse).1 := by
  have h := undo_reverse_order exUndoFS ["b"] exLog rfl rfl
  exact ⟨h.1, h.2.2.2⟩

/-- Witness for `undo_report_accounting` on `exUndoFS`: the single
recorded operation is restored, and the buckets add up to one. -/
theorem undo_report_accounting_witness :
    ({ restored_files := 1, failed_restores := [], skipped_files := [] }
        : UndoReport).restored_files +
      ({ restored_files := 1, failed_restores := [], skipped_files := [] }
        : UndoReport).failed_restores.length +
      ({ restored_files := 1, failed_restores := [], skipped_files := [] }
        : UndoReport).skipped_files.length = exLog.operations.length :=
  undo_report_accounting exUndoFS ["b"] exLog
    { restored_files := 1, failed_restores := [], skipped_files := [] } rfl rfl rfl

/-- C2: the returned report is decided entirely by the restore loop
(deletion failure does not change it); when the report has a skip or a
failure the history file is left exactly as the loop left the state (no
deletion is attempted); when the report is a complete success the history
file is deleted (no file remains at its path) provided the OS does not
fail the removal, and an OS failure of the removal leaves the state as
the loop left it while the same successful report is still returned. -/
theorem undo_deletes_history_iff_success (fs : FS) (base_path : PathC) (log : OperationLog)
    (hbase : fs.pathExists base_path = true)
    (hload : OperationLog.load fs base_path = .ok (some log)) :
    ((UndoManager.undo fs base_path).1 =
      .ok (UndoManager.processOps UndoReport.new fs [] log.operations.reverse).1) ∧
    (((UndoManager.processOps UndoReport.new fs [] log.operations.reverse).1).is_complete_success
        = false →
      (UndoManager.undo fs base_path).2 =
        (UndoManager.processOps UndoReport.new fs [] log.operations.reverse).2.1) ∧
    (((UndoManager.processOps UndoReport.new fs [] log.operations.reverse).1).is_complete_success
        = true →
      ((UndoManager.processOps UndoReport.new fs [] log.operations.reverse).2.1).removeErr
          (OperationLog.history_file_path base_path) = none →
      ((UndoManager.undo fs base_path).2).files (OperationLog.history_file_path base_path)
        = none) ∧
    (((UndoManager.processOps UndoReport.new fs [] log.operations.reverse).1).is_complete_success
        = true →
      ∀ e, ((UndoManager.processOps UndoReport.new fs [] log.operations.reverse).2.1).removeErr
          (OperationLog.history_file_path base_path) = some e →
      (UndoManager.undo fs base_path).2 =
        (UndoManager.processOps UndoReport.new fs [] log.operations.reverse).2.1) := by
  unfold UndoManager.undo
  rcases hp : UndoManager.processOps UndoReport.new fs [] log.operations.reverse
    with ⟨r, f, t⟩
  simp only [hbase, Bool.true_eq_false, if_false, hload, hp]
  refine ⟨?_, ?_, ?_, ?_⟩
  · cases hs : r.is_complete_success <;> simp
  · intro hs
    simp [hs]
  · intro hs hrem
    simp only [hs, if_true]
    unfold OperationLog.delete
    cases hf : f.files (OperationLog.history_file_path base_path) with
    | some c =>
      have hex : f.pathExists (OperationLog.history_file_path base_path) = true := by
        simp [FS.pathExists, hf]
      simp only [hex, if_true]
      unfold FS.remove_file
      rw [hrem, hf]
      simp
    | none =>
      by_cases hex : f.pathExists (OperationLog.history_file_path base_path) = true
      · simp only [hex, if_true]
        unfold FS.remove_file
        rw [hrem, hf]
        simp [hf]
      · simp only [Bool.not_eq_true] at hex
        simp [hex, hf]
  · intro hs e hrem
    simp only [hs, if_true]
    unfold OperationLog.delete
    by_cases hex : f.pathExists (OperationLog.history_file_path base_path) = true
    · simp only [hex, if_true]
      unfold FS.remove_file
      rw [hrem]
    · simp only [Bool.not_eq_true] at hex
      simp [hex]

/-- Example state for witnesses: the history file records `exLog` but the
moved file is gone, so undo skips and must keep the history file. -/
def exUndoSkipFS : FS :=
  { exUndoFS with files := fun p =>
      if p = ["b", ".dirtidy_history.json"] then some (.log exLog) else none }

/-- Witness for `undo_deletes_history_iff_success`: on `exUndoFS`
(complete success) the history file is gone after undo; on
`exUndoSkipFS` (a skip) the state is exactly the loop's — nothing was
deleted. -/
theorem undo_deletes_history_iff_success_witness :
    ((UndoManager.undo exUndoFS ["b"]).2).files (OperationLog.history_file_path ["b"])
        = none ∧
    (UndoManager.undo exUndoSkipFS ["b"]).2 =
      (UndoManager.processOps UndoReport.new exUndoSkipFS []
        exLog.operations.reverse).2.1 :=
  ⟨(undo_deletes_history_iff_success exUndoFS ["b"] exLog rfl rfl).2.2.1 rfl rfl,
   (undo_deletes_history_iff_success exUndoSkipFS ["b"] exLog rfl rfl).2.1 rfl⟩

/-- C4 (amended): behaviour and bucketing of one undo step. (1) If
nothing is at the recorded new path, the step fails with the concrete
"not found" reason, the state is untouched and the operation is bucketed
as skipped. (2) If the original path is occupied, the occupant is first
renamed to `<name>.bak.<timestamp>` in the same parent directory; a
failed backup-rename aborts before the restore move, the state is
untouched, and the error is bucketed as a failure when its reason does
not contain "not found" — but as skipped when it does (bucketing is by
substring). (3) A successful backup moves the occupant's content to the
backup path, after which the restore move is attempted from that
intermediate state (a failure leaves the backup in place; the occupant's
content sits at the backup path). (4) Without an occupant, a failed
restore move leaves the state untouched and is bucketed the same
substring-dependent way. (5) A successful restore move puts the content
back at the original path and increments the restored count. -/
theorem restore_file_step_cases (fs : FS) (op : Operation) (report : UndoReport) :
    (fs.pathExists op.new_path = false →
      UndoManager.restore_file fs op =
        (.error (op.new_path, "File not found at expected location"), fs) ∧
      strContains "File not found at expected location" "not found" = true ∧
      UndoManager.undoStep report fs op =
        ({ report with skipped_files :=
            report.skipped_files ++ [(op.new_path, "File not found at expected location")] },
         fs)) ∧
    (fs.pathExists op.new_path = true →
      fs.pathExists op.original_path = true →
      ∀ e, fs.renameErr op.original_path
          (UndoManager.generate_backup_path fs.nowStamp op.original_path) = some e →
      UndoManager.restore_file fs op =
        (.error (op.original_path, "Could not backup conflicting file: " ++ e), fs) ∧
      (strContains ("Could not backup conflicting file: " ++ e) "not found" = false →
        UndoManager.undoStep report fs op =
          ({ report with failed_restores := report.failed_restores ++
              [(op.original_path, "Could not backup conflicting file: " ++ e)] }, fs)) ∧
      (strContains ("Could not backup conflicting file: " ++ e) "not found" = true →
        UndoManager.undoStep report fs op =
          ({ report with skipped_files := report.skipped_files ++
              [(op.original_path, "Could not backup conflicting file: " ++ e)] }, fs))) ∧
    (fs.pathExists op.new_path = true →
      ∀ c, fs.files op.original_path = some c →
      fs.renameErr op.original_path
          (UndoManager.generate_backup_path fs.nowStamp op.original_path) = none →
      ((∀ e2, fs.renameErr op.new_path op.original_path = some e2 →
          UndoManager.restore_file fs op =
            (.error (op.new_path, "Failed to restore file: " ++ e2),
             { fs with
                files := fun q =>
                  if q = UndoManager.generate_backup_path fs.nowStamp op.original_path then
                    some c
                  else if q = op.original_path then none
                  else fs.files q })) ∧
       ({ fs with
           files := fun q =>
             if q = UndoManager.generate_backup_path fs.nowStamp op.original_path then some c
             else if q = op.original_path then none
             else fs.files q } : FS).files
          (UndoManager.generate_backup_path fs.nowStamp op.original_path) = some c)) ∧
    (fs.pathExists op.new_path = true →
      fs.pathExists op.original_path = false →
      ∀ e, fs.renameErr op.new_path op.original_path = some e →
      UndoManager.restore_file fs op =
        (.error (op.new_path, "Failed to restore file: " ++ e), fs) ∧
      (strContains ("Failed to restore file: " ++ e) "not found" = false →
        UndoManager.undoStep report fs op =
          ({ report with failed_restores := report.failed_restores ++
              [(op.new_path, "Failed to restore file: " ++ e)] }, fs)) ∧
      (strContains ("Failed to restore file: " ++ e) "not found" = true →
        UndoManager.undoStep report fs op =
          ({ report with skipped_files := report.skipped_files ++
              [(op.new_path, "Failed to restore file: " ++ e)] }, fs))) ∧
    (fs.pathExists op.new_path = true →
      fs.pathExists op.original_path = false →
      fs.renameErr op.new_path op.original_path = none →
      ∀ d, fs.files op.new_path = some d →
      UndoManager.restore_file fs op =
        (.ok (), { fs with
                    files := fun q =>
                      if q = op.original_path then some d
                      else if q = op.new_path then none
                      else fs.files q }) ∧
      (UndoManager.undoStep report fs op).1 =
        { report with restored_files := report.restored_files + 1 }) := by
  refine ⟨?_, ?_, ?_, ?_, ?_⟩
  · intro hnew
    have hrf : UndoManager.restore_file fs op =
        (.error (op.new_path, "File not found at expected location"), fs) := by
      simp [UndoManager.restore_file, hnew]
    refine ⟨hrf, by decide, ?_⟩
    simp [UndoManager.undoStep, hrf, strContains, charsContain]
  · intro hnew horig e he
    have hrf : UndoManager.restore_file fs op =
        (.error (op.original_path, "Could not backup conflicting file: " ++ e), fs) := by
      simp [UndoManager.restore_file, hnew, horig, FS.rename, he]
    refine ⟨hrf, ?_, ?_⟩
    · intro hc
      simp [UndoManager.undoStep, hrf, hc]
    · intro hc
      simp [UndoManager.undoStep, hrf, hc]
  · intro hnew c hc hbak
    refine ⟨?_, by simp⟩
    intro e2 he2
    have horig : fs.pathExists op.original_path = true := by
      simp [FS.pathExists, hc]
    simp [UndoManager.restore_file, hnew, horig, FS.rename, hbak, hc, he2]
  · intro hnew horig e he
    have hrf : UndoManager.restore_file fs op =
        (.error (op.new_path, "Failed to restore file: " ++ e), fs) := by
      simp [UndoManager.restore_file, hnew, horig, FS.rename, he]
    refine ⟨hrf, ?_, ?_⟩
    · intro hc
      simp [UndoManager.undoStep, hrf, hc]
    · intro hc
      simp [UndoManager.undoStep, hrf, hc]
  · intro hnew horig hok d hd
    have hrf : UndoManager.restore_file fs op =
        (.ok (), { fs with
                    files := fun q =>
                      if q = op.original_path then some d
                      else if q = op.new_path then none
                      else fs.files q }) := by
      simp [UndoManager.restore_file, hnew, horig, FS.rename, hok, hd]
    exact ⟨hrf, by simp [UndoManager.undoStep, hrf]⟩

/-- Example operation for the backup-failure counterexample. -/
def cexOp : Operation :=
  { original_path := ["b", "f.txt"]
    new_path := ["b", "documents", "f.txt"]
    category := "documents" }

/-- Example state: the moved file and a conflicting occupant both exist,
and the OS fails any rename out of the original path with an io error
whose display text contains "not found" (as Rust's
`ErrorKind::NotFound` errors render, e.g. "entity not found"). -/
def cexBackupFS : FS :=
  { files := fun p =>
      if p = ["b", "documents", "f.txt"] then some (.data "moved")
      else if p = ["b", "f.txt"] then some (.data "occupant")
      else none
    dirs := fun p => p == ["b"] || p == ["b", "documents"]
    renameErr := fun src _ => if src = ["b", "f.txt"] then some "entity not found" else none
    createDirErr := fun _ => none
    removeErr := fun _ => none
    nowStamp := "20251109-143052" }

/-- C4, counterexample: a failed backup-rename whose cause contains
"not found" is recorded as a *skip*, not a failure — the undo loop
buckets by substring match on the reason, so the claim that a failed
backup-rename is always recorded as a failure is false. -/
theorem backup_failure_bucketed_as_skip_cex :
    (UndoManager.undoStep UndoReport.new cexBackupFS cexOp).1.failed_restores = [] ∧
    (UndoManager.undoStep UndoReport.new cexBackupFS cexOp).1.skipped_files =
      [(["b", "f.txt"], "Could not backup conflicting file: entity not found")] := by
  constructor <;> rfl

/-- Witness for `restore_file_step_cases`: on `exUndoSkipFS` the recorded
new path holds no file, so the step is the "not found" skip. -/
theorem restore_file_step_cases_witness :
    UndoManager.restore_file exUndoSkipFS
        { original_path := ["b", "test.txt"]
          new_path := ["b", "documents", "test.txt"]
          category := "documents" } =
      (.error (["b", "documents", "test.txt"], "File not found at expected location"),
       exUndoSkipFS) :=
  ((restore_file_step_cases exUndoSkipFS
      { original_path := ["b", "test.txt"]
        new_path := ["b", "documents", "test.txt"]
        category := "documents" } UndoReport.new).1 rfl).1

/-- C9 (amended): precondition behaviour of
`move_to_category_with_record`. (a) A base path with nothing at it fails
with `InvalidBasePath` before any mutation — but a base path occupied by
a plain file passes this check (only existence is tested, not
directoriness). (b) With the category directory already present, a file
path without a name component fails with `FileMoveFailure` and mutates
nothing. (c) With the category directory absent, it is created *before*
the file-name check, so the same degenerate file path still fails with
`FileMoveFailure` but leaves the directory created. (d) When the base
path exists and the file path has a name, the rename to
`base/category/<name>` is attempted, failing with `FileMoveFailure`
carrying source, destination and cause, or succeeding with the recorded
operation. -/
theorem move_to_category_preconditions (fs : FS) (base_path file_path : PathC)
    (category_dir_name : String) :
    (fs.pathExists base_path = false →
      FileOrganizer.move_to_category_with_record fs base_path file_path category_dir_name =
        (.error (.InvalidBasePath base_path "base path does not exist"), fs)) ∧
    (fs.pathExists base_path = true →
      fs.pathExists (base_path ++ [category_dir_name]) = true →
      PathC.fileName file_path = none →
      FileOrganizer.move_to_category_with_record fs base_path file_path category_dir_name =
        (.error (.FileMoveFailure file_path (base_path ++ [category_dir_name])
          "file has no name component"), fs)) ∧
    (fs.pathExists base_path = true →
      fs.pathExists (base_path ++ [category_dir_name]) = false →
      fs.createDirErr (base_path ++ [category_dir_name]) = none →
      PathC.fileName file_path = none →
      FileOrganizer.move_to_category_with_record fs base_path file_path category_dir_name =
        (.error (.FileMoveFailure file_path (base_path ++ [category_dir_name])
          "file has no name component"),
         { fs with
            dirs := fun q =>
              if q = base_path ++ [category_dir_name] then true else fs.dirs q })) ∧
    (fs.pathExists base_path = true →
      fs.pathExists (base_path ++ [category_dir_name]) = true →
      ∀ name, PathC.fileName file_path = some name →
      ((∀ e, fs.renameErr file_path ((base_path ++ [category_dir_name]) ++ [name]) = some e →
          FileOrganizer.move_to_category_with_record fs base_path file_path
              category_dir_name =
            (.error (.FileMoveFailure file_path ((base_path ++ [category_dir_name]) ++ [name])
              e), fs)) ∧
       (fs.renameErr file_path ((base_path ++ [category_dir_name]) ++ [name]) = none →
        ∀ c, fs.files file_path = some c →
          FileOrganizer.move_to_category_with_record fs base_path file_path
              category_dir_name =
            (.ok { original_path := file_path
                   new_path := (base_path ++ [category_dir_name]) ++ [name]
                   category := category_dir_name },
             { fs with
                files := fun q =>
                  if q = (base_path ++ [category_dir_name]) ++ [name] then some c
                  else if q = file_path then none
                  else fs.files q })))) := by
  refine ⟨?_, ?_, ?_, ?_⟩
  · intro hbase
    simp [FileOrganizer.move_to_category_with_record, hbase]
  · intro hbase hcat hname
    simp [FileOrganizer.move_to_category_with_record, hbase, hcat, hname]
  · intro hbase hcat hcd hname
    simp [FileOrganizer.move_to_category_with_record, hbase, hcat, FS.create_dir, hcd, hname]
  · intro hbase hcat name hname
    constructor
    · intro e he
      simp only [List.append_assoc, List.cons_append, List.nil_append] at he
      simp [FileOrganizer.move_to_category_with_record, hbase, hcat, hname, FS.rename, he]
    · intro hok c hc
      simp only [List.append_assoc, List.cons_append, List.nil_append] at hok
      simp [FileOrganizer.move_to_category_with_record, hbase, hcat, hname, FS.rename,
        hok, hc]

/-- Example state: the base path is occupied by a plain *file*, and the
OS refuses to create a directory beneath it. -/
def cexBaseFileFS : FS :=
  { files := fun p => if p = ["base"] then some (.data "occupied by a file") else none
    dirs := fun _ => false
    renameErr := fun _ _ => none
    createDirErr := fun p =>
      if p = ["base", "documents"] then some "Not a directory (os error 20)" else none
    removeErr := fun _ => none
    nowStamp := "20251109-143052" }

/-- C9, counterexample: the base path exists as a plain file — so it
"does not exist as a directory" — yet the call does not fail with
`InvalidBasePath` (only existence is checked): it proceeds and fails
with `DirectoryCreationFailed` from the directory-creation step. -/
theorem base_path_file_not_invalid_base_cex :
    FileOrganizer.move_to_category_with_record cexBaseFileFS ["base"] ["base", "f.txt"]
        "documents" =
      (.error (.DirectoryCreationFailed ["base", "documents"]
        "Not a directory (os error 20)"), cexBaseFileFS) := by
  rfl

/-- Example state for the organizer witnesses: a base directory `b`
holding a single file `b/img.png`; no OS failures. -/
def exOrgFS : FS :=
  { files := fun p => if p = ["b", "img.png"] then some (.data "png bytes") else none
    dirs := fun p => p == ["b"]
    renameErr := fun _ _ => none
    createDirErr := fun _ => none
    removeErr := fun _ => none
    nowStamp := "20251109-143052" }

/-- Witness for `move_to_category_preconditions`: on `exOrgFS` a file
path without a name component (`..`) fails with `FileMoveFailure`, yet
the absent category directory `b/images` has been created. -/
theorem move_to_category_preconditions_witness :
    FileOrganizer.move_to_category_with_record exOrgFS ["b"] [".."] "images" =
      (.error (.FileMoveFailure [".."] (["b"] ++ ["images"]) "file has no name component"),
       { exOrgFS with
          dirs := fun q => if q = ["b"] ++ ["images"] then true else exOrgFS.dirs q }) :=
  (move_to_category_preconditions exOrgFS ["b"] [".."] "images").2.2.1 rfl rfl rfl rfl

/-- Auxiliary: what a successful `move_to_category_with_record` call did.
It extracted a file name, moved the file's content from the source to
`base/category/<name>` (touching no other file entry), preserved the
failure oracles and the timestamp, and changed no directory entry at any
path that already existed. -/
theorem move_ok_state (fs : FS) (base_path file_path : PathC) (category_dir_name : String)
    (op : Operation)
    (hok : (FileOrganizer.move_to_category_with_record fs base_path file_path
        category_dir_name).1 = .ok op) :
    ∃ name c, PathC.fileName file_path = some name ∧
      fs.files file_path = some c ∧
      op.original_path = file_path ∧
      op.new_path = (base_path ++ [category_dir_name]) ++ [name] ∧
      op.category = category_dir_name ∧
      (∀ q, ((FileOrganizer.move_to_category_with_record fs base_path file_path
          category_dir_name).2).files q =
        if q = (base_path ++ [category_dir_name]) ++ [name] then some c
        else if q = file_path then none
        else fs.files q) ∧
      ((FileOrganizer.move_to_category_with_record fs base_path file_path
          category_dir_name).2).renameErr = fs.renameErr ∧
      ((FileOrganizer.move_to_category_with_record fs base_path file_path
          category_dir_name).2).nowStamp = fs.nowStamp ∧
      (∀ q, fs.pathExists q = true →
        ((FileOrganizer.move_to_category_with_record fs base_path file_path
            category_dir_name).2).dirs q = fs.dirs q) := by
  by_cases hb : fs.pathExists base_path = false
  · exfalso
    simp [FileOrganizer.move_to_category_with_record, hb] at hok
  · simp only [Bool.not_eq_false] at hb
    cases hname : PathC.fileName file_path with
    | none =>
      exfalso
      by_cases hcat : fs.pathExists (base_path ++ [category_dir_name]) = false
      · cases hcd : fs.createDirErr (base_path ++ [category_dir_name]) with
        | some e =>
          simp [FileOrganizer.move_to_category_with_record, hb, hcat, FS.create_dir,
            hcd] at hok
        | none =>
          simp [FileOrganizer.move_to_category_with_record, hb, hcat, FS.create_dir,
            hcd, hname] at hok
      · simp only [Bool.not_eq_false] at hcat
        simp [FileOrganizer.move_to_category_with_record, hb, hcat, hname] at hok
    | some name =>
      by_cases hcat : fs.pathExists (base_path ++ [category_dir_name]) = false
      · cases hcd : fs.createDirErr (base_path ++ [category_dir_name]) with
        | some e =>
          exfalso
          simp [FileOrganizer.move_to_category_with_record, hb, hcat, FS.create_dir,
            hcd] at hok
        | none =>
          cases hre : fs.renameErr file_path (base_path ++ [category_dir_name, name])
            with
          | some e =>
            exfalso
            simp [FileOrganizer.move_to_category_with_record, hb, hcat, FS.create_dir,
              hcd, hname, FS.rename, hre] at hok
          | none =>
            cases hc : fs.files file_path with
            | none =>
              exfalso
              simp [FileOrganizer.move_to_category_with_record, hb, hcat, FS.create_dir,
                hcd, hname, FS.rename, hre, hc] at hok
            | some c =>
              have hopeq : op = { original_path := file_path
                                  new_path := base_path ++ [category_dir_name, name]
                                  category := category_dir_name } := by
                simp [FileOrganizer.move_to_category_with_record, hb, hcat, FS.create_dir,
                  hcd, hname, FS.rename, hre, hc] at hok
                exact hok.symm
              refine ⟨name, c, rfl, rfl, by simp [hopeq], by simp [hopeq], by simp [hopeq],
                ?_, ?_, ?_, ?_⟩
              · intro q
                simp [FileOrganizer.move_to_category_with_record, hb, hcat, FS.create_dir,
                  hcd, hname, FS.rename, hre, hc]
              · simp [FileOrganizer.move_to_category_with_record, hb, hcat, FS.create_dir,
                  hcd, hname, FS.rename, hre, hc]
              · simp [FileOrganizer.move_to_category_with_record, hb, hcat, FS.create_dir,
                  hcd, hname, FS.rename, hre, hc]
              · intro q hq
                simp [FileOrganizer.move_to_category_with_record, hb, hcat, FS.create_dir,
                  hcd, hname, FS.rename, hre, hc]
                intro hqeq
                rw [hqeq] at hq
                rw [hq] at hcat
                cases hcat
      · simp only [Bool.not_eq_false] at hcat
        cases hre : fs.renameErr file_path (base_path ++ [category_dir_name, name])
          with
        | some e =>
          exfalso
          simp [FileOrganizer.move_to_category_with_record, hb, hcat, hname, FS.rename,
            hre] at hok
        | none =>
          cases hc : fs.files file_path with
          | none =>
            exfalso
            simp [FileOrganizer.move_to_category_with_record, hb, hcat, hname, FS.rename,
              hre, hc] at hok
          | some c =>
            have hopeq : op = { original_path := file_path
                                new_path := base_path ++ [category_dir_name, name]
                                category := category_dir_name } := by
              simp [FileOrganizer.move_to_category_with_record, hb, hcat, hname, FS.rename,
                hre, hc] at hok
              exact hok.symm
            refine ⟨name, c, rfl, rfl, by simp [hopeq], by simp [hopeq], by simp [hopeq],
              ?_, ?_, ?_, ?_⟩
            · intro q
              simp [FileOrganizer.move_to_category_with_record, hb, hcat, hname, FS.rename,
                hre, hc]
            · simp [FileOrganizer.move_to_category_with_record, hb, hcat, hname, FS.rename,
                hre, hc]
            · simp [FileOrganizer.move_to_category_with_record, hb, hcat, hname, FS.rename,
                hre, hc]
            · intro q hq
              simp [FileOrganizer.move_to_category_with_record, hb, hcat, hname, FS.rename,
                hre, hc]

/-- C1: round trip for a file moved by an organize run. If an organize
move of the direct child `base/<name>` into a category succeeds and
records `op` (and nothing sat at the destination beforehand), then —
with no interference, and the OS permitting the restoring rename — the
undo restore of `op` succeeds, moving the file from its recorded new
path back to exactly its recorded original path: the file map of the
resulting state equals the pre-organize file map at every path. -/
theorem organize_undo_round_trip (fs : FS) (base_path : PathC)
    (name category_dir_name : String) (op : Operation)
    (hnd : fs.dirs (base_path ++ [name]) = false)
    (hfresh : fs.pathExists (base_path ++ [category_dir_name] ++ [name]) = false)
    (hok : (FileOrganizer.move_to_category_with_record fs base_path (base_path ++ [name])
        category_dir_name).1 = .ok op)
    (hor : ((FileOrganizer.move_to_category_with_record fs base_path (base_path ++ [name])
        category_dir_name).2).renameErr op.new_path op.original_path = none) :
    (UndoManager.restore_file
        (FileOrganizer.move_to_category_with_record fs base_path (base_path ++ [name])
          category_dir_name).2 op).1 = .ok () ∧
    ∀ q, ((UndoManager.restore_file
        (FileOrganizer.move_to_category_with_record fs base_path (base_path ++ [name])
          category_dir_name).2 op).2).files q = fs.files q := by
  obtain ⟨name', c, hname, hc, ho1, ho2, ho3, hfiles, hre, hns, hdirs⟩ :=
    move_ok_state fs base_path (base_path ++ [name]) category_dir_name op hok
  obtain rfl : name = name' := by
    unfold PathC.fileName at hname
    rw [List.getLast?_concat] at hname
    by_cases hd : name = ".."
    · simp [hd] at hname
    · simp [hd] at hname
      exact hname
  have hne : base_path ++ [category_dir_name] ++ [name] ≠ base_path ++ [name] := by
    intro h
    have := congrArg List.length h
    simp [List.length_append] at this
  have h1 : ((FileOrganizer.move_to_category_with_record fs base_path (base_path ++ [name])
      category_dir_name).2).files op.new_path = some c := by
    rw [ho2, hfiles]
    simp
  have hpenew : ((FileOrganizer.move_to_category_with_record fs base_path
      (base_path ++ [name]) category_dir_name).2).pathExists op.new_path = true := by
    simp [FS.pathExists, h1]
  have h2 : ((FileOrganizer.move_to_category_with_record fs base_path (base_path ++ [name])
      category_dir_name).2).files op.original_path = none := by
    rw [ho1, hfiles]
    rw [if_neg (Ne.symm hne), if_pos rfl]
  have hfsorig : fs.pathExists (base_path ++ [name]) = true := by
    simp [FS.pathExists, hc]
  have hdq : ((FileOrganizer.move_to_category_with_record fs base_path (base_path ++ [name])
      category_dir_name).2).dirs op.original_path = false := by
    rw [ho1, hdirs (base_path ++ [name]) hfsorig]
    exact hnd
  have hpeorig : ((FileOrganizer.move_to_category_with_record fs base_path
      (base_path ++ [name]) category_dir_name).2).pathExists op.original_path = false := by
    simp [FS.pathExists, h2, hdq]
  have hfreshfile : fs.files (base_path ++ [category_dir_name] ++ [name]) = none := by
    simp [FS.pathExists] at hfresh
    exact Option.not_isSome_iff_eq_none.mp (by simp [hfresh.1])
  have hrestore : UndoManager.restore_file
      (FileOrganizer.move_to_category_with_record fs base_path (base_path ++ [name])
        category_dir_name).2 op =
      (.ok (), { (FileOrganizer.move_to_category_with_record fs base_path
          (base_path ++ [name]) category_dir_name).2 with
        files := fun q =>
          if q = op.original_path then some c
          else if q = op.new_path then none
          else ((FileOrganizer.move_to_category_with_record fs base_path
            (base_path ++ [name]) category_dir_name).2).files q }) := by
    simp [UndoManager.restore_file, hpenew, hpeorig, FS.rename, hor, h1]
  have hfinal : ∀ q, ((UndoManager.restore_file
      (FileOrganizer.move_to_category_with_record fs base_path (base_path ++ [name])
        category_dir_name).2 op).2).files q =
      if q = op.original_path then some c
      else if q = op.new_path then none
      else ((FileOrganizer.move_to_category_with_record fs base_path (base_path ++ [name])
        category_dir_name).2).files q := by
    intro q
    rw [hrestore]
  refine ⟨by rw [hrestore], ?_⟩
  intro q
  rw [hfinal q]
  by_cases hq1 : q = op.original_path
  · rw [if_pos hq1, hq1, ho1, hc]
  · rw [if_neg hq1]
    by_cases hq2 : q = op.new_path
    · rw [if_pos hq2, hq2, ho2, hfreshfile]
    · rw [if_neg hq2, hfiles q,
        if_neg (show q ≠ base_path ++ [category_dir_name] ++ [name] by
          rw [← ho2]; exact hq2),
        if_neg (show q ≠ base_path ++ [name] by rw [← ho1]; exact hq1)]

/-- Witness for `organize_undo_round_trip`: moving `b/img.png` into
`images` on `exOrgFS` and then restoring the recorded operation puts the
file map back exactly as it was. -/
theorem organize_undo_round_trip_witness :
    (UndoManager.restore_file
        (FileOrganizer.move_to_category_with_record exOrgFS ["b"] (["b"] ++ ["img.png"])
          "images").2
        { original_path := ["b", "img.png"]
          new_path := ["b", "images", "img.png"]
          category := "images" }).1 = .ok () ∧
    ∀ q, ((UndoManager.restore_file
        (FileOrganizer.move_to_category_with_record exOrgFS ["b"] (["b"] ++ ["img.png"])
          "images").2
        { original_path := ["b", "img.png"]
          new_path := ["b", "images", "img.png"]
          category := "images" }).2).files q = exOrgFS.files q :=
  organize_undo_round_trip exOrgFS ["b"] "img.png" "images"
    { original_path := ["b", "img.png"]
      new_path := ["b", "images", "img.png"]
      category := "images" } rfl rfl rfl rfl
